import Mathlib

/-!
Verification of the Draftworx range-capture and replication engine
(repository `draftworx-context`).

The development shallowly embeds the TypeScript sources:

* `src/taskpane/taskpane.ts` — column-letter arithmetic (`columnToNumber`,
  `getColumnLetter`) and the start-cell parsing performed inside
  `extractSelectionData`;
* `src/lib/types.ts` — `CapturedRange`, `CreateSheetOptions`,
  `AutomationResult`;
* `range.ts` (range primitives) — `captureSelection`, `pasteRange`;
* `src/lib/sheet.ts` — `createSheet`, `generateUniqueSheetName`,
  `activateSheet`;
* `automations.ts` — `copySelectionToNewSheet`, `duplicateSelection`.

Strings are modelled as `List Char` (JavaScript strings are sequences of
UTF-16 units; all the strings the library manipulates are ASCII).  The
Excel host — an external collaborator of the repository, reached through
Office.js — is modelled by an explicit `HostState` record: a workbook is a
positioned list of sheet names, an active sheet, the current selection
(address, values, formulas, geometry), and a log of the range writes the
library has issued.  Host operations that Office.js reports as errors at
`context.sync()` are modelled with `Except HostError`.  JavaScript control
idioms are embedded literally: `a || b` tests truthiness (so the empty
string falls back to `b`), `a ?? b` tests presence only, and while loops
are embedded with an explicit fuel that is proved sufficient.
-/

deriving instance DecidableEq for Except

namespace Draftworx

/-! ### Coordinate algebra (`src/taskpane/taskpane.ts`) -/

/-- `columnToNumber` (taskpane.ts, lines 246–252): folds over the letters,
`num = num * 26 + (charCode - 64)`. -/
def columnToNumber (col : List Char) : Nat :=
  col.foldl (fun num c => num * 26 + (c.toNat - 64)) 0

/-- Fuelled embedding of the `while (num > 0)` loop of `getColumnLetter`
(taskpane.ts, lines 257–265).  Each iteration prepends
`fromCharCode(65 + (num - 1) % 26)` and updates `num := (num - 1) / 26`. -/
def getColumnLetterAux : Nat → Nat → List Char
  | 0, _ => []
  | fuel + 1, num =>
    if num = 0 then []
    else getColumnLetterAux fuel ((num - 1) / 26) ++ [Char.ofNat (65 + (num - 1) % 26)]

/-- `getColumnLetter` (taskpane.ts, lines 257–265).  Fuel `num` suffices
because the loop variable strictly decreases on every iteration. -/
def getColumnLetter (num : Nat) : List Char :=
  getColumnLetterAux num num

/-! ### Decimal rendering of a counter (JavaScript template `${counter}`) -/

/-- The character for a single decimal digit. -/
def digitChar (d : Nat) : Char :=
  Char.ofNat (48 + d)

/-- Fuelled embedding of JavaScript number-to-string conversion for a
non-negative integer (most significant digit first). -/
def natCharsAux : Nat → Nat → List Char
  | 0, _ => []
  | fuel + 1, n =>
    if n < 10 then [digitChar n]
    else natCharsAux fuel (n / 10) ++ [digitChar (n % 10)]

/-- Decimal rendering of a natural number, as used by the template literal
`" (" + counter + ")"` in `generateUniqueSheetName`.  Fuel `n + 1`
suffices because the argument strictly decreases. -/
def natChars (n : Nat) : List Char :=
  natCharsAux (n + 1) n

/-- Numeric value of a run of decimal digit characters (the behaviour of
JavaScript `parseInt` on an all-digit string). -/
def parseIntDigits (s : List Char) : Nat :=
  s.foldl (fun a c => a * 10 + (c.toNat - 48)) 0

/-! ### Start-cell parsing inside `extractSelectionData`
(taskpane.ts, lines 79–88) -/

/-- The character class `[A-Z]` of the regular expression in
`startCell.match(/[A-Z]+/)`. -/
def isUpperChar (c : Char) : Bool :=
  decide (65 ≤ c.toNat) && decide (c.toNat ≤ 90)

/-- The character class `\d` of `startCell.match(/\d+/)`. -/
def isDigitChar (c : Char) : Bool :=
  decide (48 ≤ c.toNat) && decide (c.toNat ≤ 57)

/-- First (leftmost, maximal) run of characters satisfying `p`, i.e. the
text of the first match of the regular expression `/p+/`; `[]` when the
regular expression does not match. -/
def firstRun (p : Char → Bool) : List Char → List Char
  | [] => []
  | c :: cs => if p c then c :: cs.takeWhile p else firstRun p cs

/-- The start-cell parsing of `extractSelectionData` (taskpane.ts,
lines 79–88): `startCol = startCell.match(/[A-Z]+/)?.[0] || 'A'` and
`startRow = parseInt(startCell.match(/\d+/)?.[0] || '1')`.  A missing
match is `undefined`, hence falsy, hence replaced by the default; the
function is total and never raises. -/
def parseStartCell (startCell : List Char) : List Char × Nat :=
  let colRun := firstRun isUpperChar startCell
  let digitRun := firstRun isDigitChar startCell
  (if colRun = [] then ['A'] else colRun,
   parseIntDigits (if digitRun = [] then ['1'] else digitRun))

/-! ### String helpers shared by the library -/

/-- JavaScript `a || b` on an optional string: `undefined` and the empty
string are falsy and fall back to `b`. -/
def jsOrList (a : Option (List Char)) (b : List Char) : List Char :=
  match a with
  | none => b
  | some s => if s = [] then b else s

/-- JavaScript `String.prototype.split` with a single-character
separator. -/
def splitOnChar (sep : Char) : List Char → List (List Char)
  | [] => [[]]
  | c :: cs =>
    match splitOnChar sep cs with
    | [] => [[c]]
    | seg :: rest => if c = sep then [] :: seg :: rest else (c :: seg) :: rest

/-- The address normalisation of `captureSelection` / `captureRange`
(range.ts): `address.includes('!') ? address.split('!')[1] : address`. -/
def addressOnly (a : List Char) : List Char :=
  if a.contains '!' then (splitOnChar '!' a).getD 1 [] else a

/-- JavaScript `String.prototype.toLowerCase`, per character (all sheet
names handled by the library are ASCII). -/
def lowerL (s : List Char) : List Char :=
  s.map Char.toLower

/-! ### The modelled Excel host -/

/-- A cell value: JavaScript string, number, boolean, or `null`/empty.
Number values are carried opaquely — the library never computes with
them — so an integer carrier is adequate for the embedding. -/
inductive CellValue
  | text (s : List Char)
  | num (n : Int)
  | boolean (b : Bool)
  | empty
deriving DecidableEq

/-- `CapturedRange` (types.ts). -/
structure CapturedRange where
  address : List Char
  sourceSheet : List Char
  values : List (List CellValue)
  formulas : List (List (List Char))
  rowCount : Nat
  columnCount : Nat
deriving DecidableEq

/-- The grid a single host write carries: either the values grid or the
formulas grid, exactly as assigned to `range.values` / `range.formulas`. -/
inductive GridPayload
  | values (g : List (List CellValue))
  | formulas (g : List (List (List Char)))
deriving DecidableEq

/-- One range write issued to the host: destination sheet, destination
address, and the grid written. -/
structure RangeWrite where
  sheet : List Char
  address : List Char
  payload : GridPayload
deriving DecidableEq

/-- The modelled workbook: sheet names in position order (position =
index), the active sheet, the current selection as the host would report
it (`selAddress` may carry a `Sheet!` qualifier), and the log of range
writes issued so far. -/
structure HostState where
  sheets : List (List Char)
  active : List Char
  selAddress : List Char
  selValues : List (List CellValue)
  selFormulas : List (List (List Char))
  selRowCount : Nat
  selColumnCount : Nat
  writes : List RangeWrite
deriving DecidableEq

/-- An error raised by the Office.js host at `context.sync()`; carries the
`Error.message` the automation layer reports. -/
structure HostError where
  message : List Char
deriving DecidableEq

/-- A syntactically valid single cell reference for the host model:
a non-empty run of uppercase letters followed by a non-empty run of
digits. -/
def validCellRef (s : List Char) : Bool :=
  let letters := s.takeWhile isUpperChar
  let rest := s.dropWhile isUpperChar
  decide (letters ≠ []) && decide (rest ≠ []) && rest.all isDigitChar

/-- Host model: `worksheet.getRange(address)` accepts a plain `A1`-style
address, either a single cell or `cell:cell`; anything else is rejected
with `invalidAddressMessage` at `context.sync()`. -/
def validAddress (a : List Char) : Bool :=
  match splitOnChar ':' a with
  | [c] => validCellRef c
  | [c, d] => validCellRef c && validCellRef d
  | _ => false

/-- Host model: the message of the error Office.js raises for a malformed
range address. -/
def invalidAddressMessage : List Char :=
  "The argument is invalid or missing or has an incorrect format.".toList

/-- Host model: the message of the error Office.js raises when
`worksheets.add` is given a name that is already in use. -/
def duplicateNameMessage : List Char :=
  "A worksheet with the requested name already exists.".toList

/-! ### Range primitives (range.ts) -/

/-- `captureSelection` (range.ts): reads the selection's address, values,
formulas and geometry in one synchronised read, strips any sheet-name
prefix from the address, and records the active sheet as `sourceSheet`. -/
def captureSelection (st : HostState) : CapturedRange :=
  { address := addressOnly st.selAddress
    sourceSheet := st.active
    values := st.selValues
    formulas := st.selFormulas
    rowCount := st.selRowCount
    columnCount := st.selColumnCount }

/-- `pasteRange` (range.ts, lines 96–114): resolves the destination
address by `targetAddress || captured.address` (JavaScript truthiness:
`undefined` and `""` both fall back), then issues exactly one write —
the values grid when `valuesOnly`, otherwise the formulas grid — and
synchronises.  The host rejects a malformed destination address. -/
def pasteRange (st : HostState) (captured : CapturedRange)
    (targetSheet : List Char) (targetAddress : Option (List Char))
    (valuesOnly : Bool) : Except HostError HostState :=
  let address := jsOrList targetAddress captured.address
  if validAddress address then
    .ok { st with writes := st.writes ++
      [{ sheet := targetSheet
         address := address
         payload := if valuesOnly then GridPayload.values captured.values
                    else GridPayload.formulas captured.formulas }] }
  else
    .error { message := invalidAddressMessage }

/-! ### Sheet primitives (src/lib/sheet.ts) -/

/-- Position of a sheet in the workbook's sheet list (Excel's zero-based
`worksheet.position`). -/
def posOf (x : List Char) : List (List Char) → Nat
  | [] => 0
  | y :: ys => if y = x then 0 else posOf x ys + 1

/-- Insertion at an index, the composite effect of `worksheets.add`
(append at the end) followed by assigning `worksheet.position = p`
(move to index `p`). -/
def insertAt (l : List (List Char)) (p : Nat) (x : List Char) : List (List Char) :=
  l.take p ++ [x] ++ l.drop p

/-- `CreateSheetOptions.position` (types.ts): `'before' | 'after' | 'end'`. -/
inductive SheetPosition
  | before
  | after
  | atEnd
deriving DecidableEq

/-- `CreateSheetOptions` (types.ts). -/
structure CreateSheetOptions where
  name : Option (List Char) := none
  position : Option SheetPosition := none

/-- Case-insensitive sheet-name lookup: `existingNames.has(x.toLowerCase())`
where `existingNames` holds every sheet name lower-cased
(sheet.ts, lines 71–76). -/
def sheetNameTaken (sheets : List (List Char)) (name : List Char) : Bool :=
  sheets.any (fun s => lowerL s == lowerL name)

/-- Host model: the name Excel itself assigns when `worksheets.add` is
called without a name.  Never exercised by the claims — the library's
automations always pass an explicit name. -/
def autoSheetName (st : HostState) : List Char :=
  "Sheet".toList ++ natChars (st.sheets.length + 1)

/-- `createSheet` (sheet.ts, lines 25–51): loads the active sheet's
position, adds a sheet (the host appends it at the end, and raises when
the name is already in use — sheet names are case-insensitively unique),
then positions it: `'before'` sets its position to the active sheet's
position, `'end'` leaves the host default, anything else (including an
absent option) sets it to the active sheet's position plus one. -/
def createSheet (st : HostState) (options : CreateSheetOptions) :
    Except HostError (HostState × List Char) :=
  let activePos := posOf st.active st.sheets
  let name := options.name.getD (autoSheetName st)
  if sheetNameTaken st.sheets name then
    .error { message := duplicateNameMessage }
  else
    let sheets' := match options.position with
      | some SheetPosition.before => insertAt st.sheets activePos name
      | some SheetPosition.atEnd => st.sheets ++ [name]
      | _ => insertAt st.sheets (activePos + 1) name
    .ok ({ st with sheets := sheets' }, name)

/-- The probed candidate `` `${baseName} (${counter})` `` of
`generateUniqueSheetName`. -/
def candidateName (baseName : List Char) (counter : Nat) : List Char :=
  baseName ++ ([' ', '('] ++ natChars counter ++ [')'])

/-- Fuelled embedding of the `while` loop of `generateUniqueSheetName`
(sheet.ts, lines 78–83): increment `counter` while the candidate name is
in use. -/
def generateUniqueSheetNameAux (sheets : List (List Char)) (baseName : List Char) :
    Nat → Nat → Nat
  | 0, counter => counter
  | fuel + 1, counter =>
    if sheetNameTaken sheets (candidateName baseName counter) then
      generateUniqueSheetNameAux sheets baseName fuel (counter + 1)
    else counter

/-- `generateUniqueSheetName` (sheet.ts, lines 62–84): return the base
name when it is unused (case-insensitively), otherwise probe
`"{base} (2)"`, `"{base} (3)"`, … and return the first unused candidate.
The loop is embedded with fuel `sheets.length + 1`, which is proved
sufficient below (`generateUniqueSheetNameAux_free_within_fuel`). -/
def generateUniqueSheetName (sheets : List (List Char)) (baseName : List Char) :
    List Char :=
  if sheetNameTaken sheets baseName = false then baseName
  else candidateName baseName
    (generateUniqueSheetNameAux sheets baseName (sheets.length + 1) 2)

/-- `activateSheet` (sheet.ts, lines 105–113): `sheet.activate()` then
synchronise. -/
def activateSheet (st : HostState) (sheet : List Char) : HostState :=
  { st with active := sheet }

/-! ### Composed automations (automations.ts) -/

/-- `AutomationResult<T>` (types.ts): a record with a `success` flag and
optional `data` and `error` fields — the TypeScript interface does not
force the discriminated shape, so the binary-outcome property is proved,
not assumed. -/
structure AutomationResult (T : Type) where
  success : Bool
  data : Option T := none
  error : Option (List Char) := none
deriving DecidableEq

/-- `CopyToNewSheetResult` (automations.ts). -/
structure CopyToNewSheetResult where
  captured : CapturedRange
  newSheetName : List Char
  pastedAddress : List Char
deriving DecidableEq

/-- `CopyToNewSheetOptions` (automations.ts). -/
structure CopyToNewSheetOptions where
  sheetName : Option (List Char) := none
  valuesOnly : Option Bool := none
  activateNewSheet : Option Bool := none

/-- The body of `copySelectionToNewSheet` (automations.ts, lines 62–107),
i.e. the function passed to `Excel.run`: capture, degenerate-selection
check (an early *normal* return of a failure result, not a raised error),
base name `options.sheetName || "Copy of " + sourceSheet` (truthiness),
unique-name generation, sheet creation, paste at `captured.address` with
`options.valuesOnly ?? false` (nullish coalescing), and activation unless
`options.activateNewSheet === false`.  A raised host error aborts the
sequence, carrying the state whose side effects have already been
committed. -/
def copySelectionToNewSheetBody (st : HostState) (options : CopyToNewSheetOptions) :
    Except (HostError × HostState) (HostState × AutomationResult CopyToNewSheetResult) :=
  let captured := captureSelection st
  if captured.rowCount = 0 ∨ captured.columnCount = 0 then
    .ok (st, { success := false, error := some "No cells selected".toList })
  else
    let baseName := jsOrList options.sheetName ("Copy of ".toList ++ captured.sourceSheet)
    let uniqueName := generateUniqueSheetName st.sheets baseName
    match createSheet st { name := some uniqueName } with
    | .error e => .error (e, st)
    | .ok (st1, newSheet) =>
      match pasteRange st1 captured newSheet (some captured.address)
          (options.valuesOnly.getD false) with
      | .error e => .error (e, st1)
      | .ok st2 =>
        let st3 := if options.activateNewSheet ≠ some false
                   then activateSheet st2 newSheet else st2
        .ok (st3, { success := true
                    data := some { captured := captured
                                   newSheetName := uniqueName
                                   pastedAddress := captured.address } })

/-- `copySelectionToNewSheet` (automations.ts, lines 62–113): the body
wrapped in `try`/`catch` — any raised error is converted into
`{success: false, error: error.message}`. -/
def copySelectionToNewSheet (st : HostState) (options : CopyToNewSheetOptions) :
    HostState × AutomationResult CopyToNewSheetResult :=
  match copySelectionToNewSheetBody st options with
  | .ok r => r
  | .error (e, st') => (st', { success := false, error := some e.message })

/-- The success payload of `duplicateSelection`. -/
structure DuplicateResult where
  sourceAddress : List Char
  targetAddress : List Char
deriving DecidableEq

/-- The body of `duplicateSelection` (automations.ts, lines 122–140):
capture the selection and paste it at `targetAddress` on the active
sheet.  There is no degenerate-selection check in this automation. -/
def duplicateSelectionBody (st : HostState) (targetAddress : List Char)
    (valuesOnly : Bool) :
    Except (HostError × HostState) (HostState × AutomationResult DuplicateResult) :=
  let captured := captureSelection st
  let sheet := st.active
  match pasteRange st captured sheet (some targetAddress) valuesOnly with
  | .error e => .error (e, st)
  | .ok st1 =>
    .ok (st1, { success := true
                data := some { sourceAddress := captured.address
                               targetAddress := targetAddress } })

/-- `duplicateSelection` (automations.ts, lines 122–147): the body wrapped
in `try`/`catch`, converting any raised error into a failure result. -/
def duplicateSelection (st : HostState) (targetAddress : List Char)
    (valuesOnly : Bool) : HostState × AutomationResult DuplicateResult :=
  match duplicateSelectionBody st targetAddress valuesOnly with
  | .ok r => r
  | .error (e, st') => (st', { success := false, error := some e.message })

/-- The default base name `"Copy of " + sourceSheet` used by
`copySelectionToNewSheet` when no `sheetName` option is supplied. -/
def copyOfName (st : HostState) : List Char :=
  "Copy of ".toList ++ st.active

/-! ### Concrete workbooks used as evaluation inputs -/

/-- A workbook with one sheet `"Data"`, a 2×2 selection `B2:C3` holding a
formula cell, a text cell, an empty cell and a boolean cell. -/
def exState : HostState :=
  { sheets := ["Data".toList]
    active := "Data".toList
    selAddress := "Data!B2:C3".toList
    selValues := [[CellValue.num 20, CellValue.text "x".toList],
                  [CellValue.empty, CellValue.boolean true]]
    selFormulas := [["=A1*2".toList, "x".toList], ["".toList, "TRUE".toList]]
    selRowCount := 2
    selColumnCount := 2
    writes := [] }

/-- The range captured from `exState`. -/
def exCaptured : CapturedRange :=
  captureSelection exState

/-- A workbook whose current selection is degenerate: zero rows and zero
columns. -/
def exDegenerate : HostState :=
  { sheets := ["Data".toList]
    active := "Data".toList
    selAddress := "A1".toList
    selValues := []
    selFormulas := []
    selRowCount := 0
    selColumnCount := 0
    writes := [] }

/-! ## Theorems -/

/-! ### Coordinate algebra -/

theorem columnToNumber_append (xs : List Char) (c : Char) :
    columnToNumber (xs ++ [c]) = columnToNumber xs * 26 + (c.toNat - 64) := by
  simp [columnToNumber, List.foldl_append]

theorem charOfNat_upper_toNat : ∀ m, m < 26 → (Char.ofNat (65 + m)).toNat = 65 + m := by
  decide

theorem getColumnLetterAux_roundtrip :
    ∀ fuel num, num ≤ fuel → columnToNumber (getColumnLetterAux fuel num) = num := by
  intro fuel
  induction fuel with
  | zero =>
    intro num h
    have hz : num = 0 := by omega
    subst hz
    rfl
  | succ fuel ih =>
    intro num h
    match num with
    | 0 => rfl
    | m + 1 =>
      rw [getColumnLetterAux, if_neg (by omega)]
      rw [columnToNumber_append]
      have hd : (m + 1 - 1) / 26 ≤ fuel := by
        have := Nat.div_le_self m 26
        omega
      rw [ih _ hd]
      rw [charOfNat_upper_toNat _ (by omega)]
      omega

/-- Claim C1: for every integer `n ≥ 1`, converting the column number to
letters and back is the identity, with the spot values 1→"A", 26→"Z",
27→"AA", 52→"AZ", 702→"ZZ", 703→"AAA". -/
theorem column_letter_roundtrip :
    (∀ n : Nat, 1 ≤ n → columnToNumber (getColumnLetter n) = n) ∧
    getColumnLetter 1 = ['A'] ∧ getColumnLetter 26 = ['Z'] ∧
    getColumnLetter 27 = ['A', 'A'] ∧ getColumnLetter 52 = ['A', 'Z'] ∧
    getColumnLetter 702 = ['Z', 'Z'] ∧ getColumnLetter 703 = ['A', 'A', 'A'] := by
  refine ⟨fun n _ => getColumnLetterAux_roundtrip n n (Nat.le_refl n),
    ?_, ?_, ?_, ?_, ?_, ?_⟩ <;> decide

/-- Witness for claim C1 at the concrete column number 28. -/
theorem column_letter_roundtrip_witness :
    1 ≤ 28 ∧ columnToNumber (getColumnLetter 28) = 28 :=
  ⟨by decide, column_letter_roundtrip.1 28 (by decide)⟩

/-! ### Paste primitive -/

theorem jsOrList_some_self (b : List Char) : jsOrList (some b) b = b := by
  by_cases h : b = [] <;> simp [jsOrList, h]

/-- Claim C2: `pasteRange` issues exactly one grid write — the formulas
grid when `valuesOnly` is false, the values grid alone (discarding every
captured formula) when it is true — and an omitted destination address
behaves exactly like passing the captured range's own address. -/
theorem pasteRange_spec (st : HostState) (c : CapturedRange) (sheet : List Char)
    (a : Option (List Char)) (vo : Bool)
    (h : validAddress (jsOrList a c.address) = true) :
    pasteRange st c sheet a vo =
      .ok { st with writes := st.writes ++
        [{ sheet := sheet
           address := jsOrList a c.address
           payload := if vo then GridPayload.values c.values
                      else GridPayload.formulas c.formulas }] } ∧
    pasteRange st c sheet none vo = pasteRange st c sheet (some c.address) vo := by
  constructor
  · simp [pasteRange, h]
  · simp [pasteRange, jsOrList_some_self]
    rfl

/-- Witness for claim C2: pasting the concrete capture of `exState` to an
explicit destination `D4` with `valuesOnly = false`. -/
theorem pasteRange_spec_witness :
    validAddress (jsOrList (some "D4".toList) exCaptured.address) = true ∧
    pasteRange exState exCaptured "Data".toList (some "D4".toList) false =
      .ok { exState with writes := exState.writes ++
        [{ sheet := "Data".toList
           address := jsOrList (some "D4".toList) exCaptured.address
           payload := GridPayload.formulas exCaptured.formulas }] } :=
  ⟨by decide,
   (pasteRange_spec exState exCaptured "Data".toList (some "D4".toList) false
      (by decide)).1⟩

/-- Claim C10: calling `pasteRange` with the empty string as the target
address behaves identically to calling it with no target address at all,
because the `targetAddress || captured.address` fallback tests
truthiness, and the empty string is falsy. -/
theorem pasteRange_empty_target (st : HostState) (c : CapturedRange)
    (sheet : List Char) (vo : Bool) :
    pasteRange st c sheet (some []) vo = pasteRange st c sheet none vo := rfl

/-! ### Unique sheet names -/

theorem digitChar_toNat : ∀ d, d < 10 → (digitChar d).toNat = 48 + d := by
  decide

theorem digitChar_toLower : ∀ d, d < 10 → Char.toLower (digitChar d) = digitChar d := by
  decide

theorem parseIntDigits_append (xs : List Char) (c : Char) :
    parseIntDigits (xs ++ [c]) = parseIntDigits xs * 10 + (c.toNat - 48) := by
  simp [parseIntDigits, List.foldl_append]

theorem natCharsAux_val :
    ∀ fuel n, n < fuel → parseIntDigits (natCharsAux fuel n) = n := by
  intro fuel
  induction fuel with
  | zero => intro n h; omega
  | succ fuel ih =>
    intro n h
    rw [natCharsAux]
    by_cases h10 : n < 10
    · rw [if_pos h10]
      have := digitChar_toNat n h10
      simp [parseIntDigits]
      omega
    · rw [if_neg h10, parseIntDigits_append]
      have hdiv : n / 10 < fuel := by omega
      rw [ih _ hdiv, digitChar_toNat _ (by omega)]
      omega

theorem natChars_val (n : Nat) : parseIntDigits (natChars n) = n :=
  natCharsAux_val (n + 1) n (by omega)

theorem natChars_inj {j k : Nat} (h : natChars j = natChars k) : j = k := by
  have hj := natChars_val j
  rw [h, natChars_val] at hj
  omega

theorem natCharsAux_lower :
    ∀ fuel n, lowerL (natCharsAux fuel n) = natCharsAux fuel n := by
  intro fuel
  induction fuel with
  | zero => intro n; rfl
  | succ fuel ih =>
    intro n
    rw [natCharsAux]
    by_cases h10 : n < 10
    · rw [if_pos h10]
      simp [lowerL, digitChar_toLower n h10]
    · rw [if_neg h10]
      unfold lowerL
      rw [List.map_append]
      unfold lowerL at ih
      rw [ih (n / 10)]
      simp [digitChar_toLower (n % 10) (by omega)]

theorem natChars_lower (n : Nat) : lowerL (natChars n) = natChars n :=
  natCharsAux_lower (n + 1) n

theorem lowerL_append (xs ys : List Char) : lowerL (xs ++ ys) = lowerL xs ++ lowerL ys :=
  List.map_append _ _ _

theorem lowerL_candidateName (base : List Char) (k : Nat) :
    lowerL (candidateName base k) = lowerL base ++ ([' ', '('] ++ natChars k ++ [')']) := by
  unfold candidateName
  rw [lowerL_append]
  congr 1
  rw [lowerL_append, lowerL_append, natChars_lower]
  rfl

theorem candidateName_lower_inj (base : List Char) {j k : Nat}
    (h : lowerL (candidateName base j) = lowerL (candidateName base k)) : j = k := by
  rw [lowerL_candidateName, lowerL_candidateName] at h
  have h1 := List.append_cancel_left h
  rw [List.append_assoc, List.append_assoc] at h1
  have h2 := List.append_cancel_left h1
  exact natChars_inj (List.append_cancel_right h2)

theorem sheetNameTaken_iff (sheets : List (List Char)) (name : List Char) :
    sheetNameTaken sheets name = true ↔ ∃ s ∈ sheets, lowerL s = lowerL name := by
  simp [sheetNameTaken, List.any_eq_true]

/-- Pigeonhole: among the `sheets.length + 1` candidates
`"{base} (2)"`, …, `"{base} (sheets.length + 2)"` — pairwise distinct even
after lower-casing — at least one is not in use. -/
theorem exists_free_candidate (sheets : List (List Char)) (base : List Char) :
    ∃ j, j < sheets.length + 1 ∧
      sheetNameTaken sheets (candidateName base (2 + j)) = false := by
  by_contra hcon
  push_neg at hcon
  have htaken : ∀ j, j < sheets.length + 1 →
      sheetNameTaken sheets (candidateName base (2 + j)) = true := by
    intro j hj
    cases hb : sheetNameTaken sheets (candidateName base (2 + j)) with
    | false => exact absurd hb (hcon j hj)
    | true => rfl
  classical
  have hmaps : ∀ j ∈ Finset.range (sheets.length + 1),
      lowerL (candidateName base (2 + j)) ∈ (sheets.map lowerL).toFinset := by
    intro j hj
    rw [Finset.mem_range] at hj
    obtain ⟨s, hs, heq⟩ := (sheetNameTaken_iff sheets _).mp (htaken j hj)
    rw [List.mem_toFinset]
    exact heq ▸ List.mem_map_of_mem lowerL hs
  have hinj : Set.InjOn (fun j => lowerL (candidateName base (2 + j)))
      ↑(Finset.range (sheets.length + 1)) := by
    intro a _ b _ hab
    have := candidateName_lower_inj base hab
    omega
  have hcard := Finset.card_le_card_of_injOn _ hmaps hinj
  rw [Finset.card_range] at hcard
  have hlen : (sheets.map lowerL).toFinset.card ≤ sheets.length := by
    calc (sheets.map lowerL).toFinset.card
        ≤ (sheets.map lowerL).length := List.toFinset_card_le _
      _ = sheets.length := List.length_map _ _
  omega

/-- The fuelled probing loop, given that a free candidate exists within
the fuel, returns the least free counter at or after the start counter. -/
theorem generateUniqueSheetNameAux_spec (sheets : List (List Char)) (base : List Char) :
    ∀ fuel counter,
      (∃ j, j < fuel ∧ sheetNameTaken sheets (candidateName base (counter + j)) = false) →
      counter ≤ generateUniqueSheetNameAux sheets base fuel counter ∧
      sheetNameTaken sheets
        (candidateName base (generateUniqueSheetNameAux sheets base fuel counter)) = false ∧
      ∀ i, counter ≤ i → i < generateUniqueSheetNameAux sheets base fuel counter →
        sheetNameTaken sheets (candidateName base i) = true := by
  intro fuel
  induction fuel with
  | zero =>
    intro counter h
    obtain ⟨j, hj, _⟩ := h
    omega
  | succ fuel ih =>
    intro counter h
    obtain ⟨j, hj, hfree⟩ := h
    rw [generateUniqueSheetNameAux]
    by_cases ht : sheetNameTaken sheets (candidateName base counter) = true
    · rw [if_pos ht]
      have hj0 : j ≠ 0 := by
        rintro rfl
        rw [Nat.add_zero, ht] at hfree
        cases hfree
      obtain ⟨j', rfl⟩ : ∃ j', j = j' + 1 := ⟨j - 1, by omega⟩
      have hfree' : sheetNameTaken sheets (candidateName base (counter + 1 + j')) = false := by
        rw [show counter + 1 + j' = counter + (j' + 1) by omega]
        exact hfree
      have hrec := ih (counter + 1) ⟨j', by omega, hfree'⟩
      refine ⟨by omega, hrec.2.1, ?_⟩
      intro i hi hlt
      by_cases hic : i = counter
      · subst hic; exact ht
      · exact hrec.2.2 i (by omega) hlt
    · rw [if_neg ht]
      have hfalse : sheetNameTaken sheets (candidateName base counter) = false := by
        cases hb : sheetNameTaken sheets (candidateName base counter) with
        | false => rfl
        | true => exact absurd hb ht
      exact ⟨Nat.le_refl _, hfalse, fun i h1 h2 => absurd h2 (by omega)⟩

/-- Full behaviour of `generateUniqueSheetName`: the base name when it is
free, otherwise the candidate at the least free counter `≥ 2`. -/
theorem generateUniqueSheetName_cases (sheets : List (List Char)) (base : List Char) :
    (sheetNameTaken sheets base = false → generateUniqueSheetName sheets base = base) ∧
    (sheetNameTaken sheets base = true →
      ∃ k, 2 ≤ k ∧ generateUniqueSheetName sheets base = candidateName base k ∧
        sheetNameTaken sheets (candidateName base k) = false ∧
        ∀ j, 2 ≤ j → j < k → sheetNameTaken sheets (candidateName base j) = true) := by
  constructor
  · intro h
    simp [generateUniqueSheetName, h]
  · intro h
    obtain ⟨j, hj, hfree⟩ := exists_free_candidate sheets base
    have hspec := generateUniqueSheetNameAux_spec sheets base (sheets.length + 1) 2
      ⟨j, hj, hfree⟩
    refine ⟨generateUniqueSheetNameAux sheets base (sheets.length + 1) 2,
      hspec.1, ?_, hspec.2.1, hspec.2.2⟩
    simp [generateUniqueSheetName, h]

/-- Claim C5: `generateUniqueSheetName` returns the base name unchanged
when it is not in use (case-insensitively), and otherwise the candidate
`"{base} (k)"` for the smallest `k ≥ 2` not in use; in particular
`{"Backup", "Backup (2)"}` with base `"Backup"` yields `"Backup (3)"`,
and the empty set yields `"Backup"` unchanged. -/
theorem generateUniqueSheetName_spec (sheets : List (List Char)) (base : List Char) :
    (sheetNameTaken sheets base = false → generateUniqueSheetName sheets base = base) ∧
    (sheetNameTaken sheets base = true →
      ∃ k, 2 ≤ k ∧ generateUniqueSheetName sheets base = candidateName base k ∧
        sheetNameTaken sheets (candidateName base k) = false ∧
        ∀ j, 2 ≤ j → j < k → sheetNameTaken sheets (candidateName base j) = true) ∧
    generateUniqueSheetName ["Backup".toList, "Backup (2)".toList] "Backup".toList =
      "Backup (3)".toList ∧
    generateUniqueSheetName [] "Backup".toList = "Backup".toList :=
  ⟨(generateUniqueSheetName_cases sheets base).1,
   (generateUniqueSheetName_cases sheets base).2,
   by decide, by decide⟩

/-- Witness for claim C5: the base name `"Backup"` is free in the empty
workbook and is returned unchanged. -/
theorem generateUniqueSheetName_spec_witness :
    sheetNameTaken [] "Backup".toList = false ∧
    generateUniqueSheetName [] "Backup".toList = "Backup".toList :=
  ⟨by decide, (generateUniqueSheetName_spec [] "Backup".toList).1 (by decide)⟩

/-- Claim C6: the probing loop of `generateUniqueSheetName` terminates for
every base name and finite existing-name set: a free candidate exists
within `sheets.length + 1` probes (so the embedded fuel is sufficient),
and the returned name is genuinely unused. -/
theorem generateUniqueSheetName_terminates (sheets : List (List Char)) (base : List Char) :
    (∃ j, j < sheets.length + 1 ∧
      sheetNameTaken sheets (candidateName base (2 + j)) = false) ∧
    sheetNameTaken sheets (generateUniqueSheetName sheets base) = false := by
  refine ⟨exists_free_candidate sheets base, ?_⟩
  cases hb : sheetNameTaken sheets base with
  | false =>
    rw [(generateUniqueSheetName_cases sheets base).1 hb]
    exact hb
  | true =>
    obtain ⟨k, _, heq, hfree, _⟩ := (generateUniqueSheetName_cases sheets base).2 hb
    rw [heq]
    exact hfree

/-! ### Sheet creation and positioning -/

theorem posOf_append_not_mem (x : List Char) (l1 l2 : List (List Char))
    (h : ∀ y ∈ l1, y ≠ x) : posOf x (l1 ++ x :: l2) = l1.length := by
  induction l1 with
  | nil => simp [posOf]
  | cons y ys ih =>
    simp only [List.cons_append, posOf, List.length_cons, List.append_eq]
    rw [if_neg (h y (by simp))]
    rw [ih (fun z hz => h z (by simp [hz]))]

theorem posOf_lt_length (x : List Char) (l : List (List Char)) (h : x ∈ l) :
    posOf x l < l.length := by
  induction l with
  | nil => cases h
  | cons y ys ih =>
    simp only [posOf, List.length_cons]
    by_cases hy : y = x
    · rw [if_pos hy]; omega
    · rw [if_neg hy]
      have hmem : x ∈ ys := by
        cases h with
        | head => exact absurd rfl hy
        | tail _ h' => exact h'
      have := ih hmem
      omega

theorem not_mem_of_not_taken (sheets : List (List Char)) (name : List Char)
    (h : sheetNameTaken sheets name = false) : ∀ s ∈ sheets, s ≠ name := by
  intro s hs heq
  subst heq
  have : sheetNameTaken sheets s = true := (sheetNameTaken_iff sheets s).mpr ⟨s, hs, rfl⟩
  rw [h] at this
  cases this

theorem posOf_insertAt (l : List (List Char)) (p : Nat) (x : List Char)
    (hp : p ≤ l.length) (h : ∀ y ∈ l, y ≠ x) :
    posOf x (insertAt l p x) = p := by
  unfold insertAt
  rw [show l.take p ++ [x] ++ l.drop p = l.take p ++ x :: l.drop p by simp]
  rw [posOf_append_not_mem x _ _ (fun y hy => h y (List.take_subset p l hy))]
  simp [List.length_take]
  omega

/-- Claim C8: `createSheet` positions the new sheet as a function of the
active sheet's position: `"before"` puts it at the active sheet's
position, `"end"` leaves it at the host-default end placement, and
`"after"` or an unspecified position puts it at the active sheet's
position plus one. -/
theorem createSheet_position (st : HostState) (name : List Char) (p : Option SheetPosition)
    (hfresh : sheetNameTaken st.sheets name = false)
    (hmem : st.active ∈ st.sheets) :
    ∃ st', createSheet st { name := some name, position := p } = .ok (st', name) ∧
      posOf name st'.sheets = (match p with
        | some SheetPosition.before => posOf st.active st.sheets
        | some SheetPosition.atEnd => st.sheets.length
        | _ => posOf st.active st.sheets + 1) := by
  have hne := not_mem_of_not_taken st.sheets name hfresh
  have hpos := posOf_lt_length st.active st.sheets hmem
  cases p with
  | none =>
    refine ⟨{ st with sheets := insertAt st.sheets (posOf st.active st.sheets + 1) name },
      by simp [createSheet, hfresh], ?_⟩
    exact posOf_insertAt st.sheets _ name (by omega) hne
  | some pos =>
    cases pos with
    | before =>
      refine ⟨{ st with sheets := insertAt st.sheets (posOf st.active st.sheets) name },
        by simp [createSheet, hfresh], ?_⟩
      exact posOf_insertAt st.sheets _ name (by omega) hne
    | after =>
      refine ⟨{ st with sheets := insertAt st.sheets (posOf st.active st.sheets + 1) name },
        by simp [createSheet, hfresh], ?_⟩
      exact posOf_insertAt st.sheets _ name (by omega) hne
    | atEnd =>
      refine ⟨{ st with sheets := st.sheets ++ [name] },
        by simp [createSheet, hfresh], ?_⟩
      have := posOf_append_not_mem name st.sheets [] hne
      simpa using this

/-- Witness for claim C8: creating `"Temp"` before the active sheet of the
concrete workbook `exState`. -/
theorem createSheet_position_witness :
    sheetNameTaken exState.sheets "Temp".toList = false ∧
    exState.active ∈ exState.sheets ∧
    ∃ st', createSheet exState
        { name := some "Temp".toList, position := some SheetPosition.before } =
        .ok (st', "Temp".toList) ∧
      posOf "Temp".toList st'.sheets = posOf exState.active exState.sheets :=
  ⟨by decide, by decide,
   createSheet_position exState "Temp".toList (some SheetPosition.before)
     (by decide) (by decide)⟩

/-! ### Start-cell parsing -/

theorem takeWhile_append_all {p : Char → Bool} :
    ∀ l1 l2 : List Char, l1.all p = true →
      (l1 ++ l2).takeWhile p = l1 ++ l2.takeWhile p := by
  intro l1
  induction l1 with
  | nil => intro l2 _; rfl
  | cons c cs ih =>
    intro l2 hall
    simp only [List.all_cons, Bool.and_eq_true] at hall
    simp only [List.cons_append, List.takeWhile_cons, hall.1, if_true]
    simp [ih l2 hall.2]

theorem firstRun_skip {p : Char → Bool} :
    ∀ l1 l2 : List Char, (∀ c ∈ l1, p c = false) →
      firstRun p (l1 ++ l2) = firstRun p l2 := by
  intro l1
  induction l1 with
  | nil => intro l2 _; rfl
  | cons c cs ih =>
    intro l2 h
    simp only [List.cons_append, firstRun]
    rw [if_neg (by rw [h c (by simp)]; exact Bool.false_ne_true)]
    exact ih l2 (fun d hd => h d (by simp [hd]))

theorem isUpperChar_of_digit (c : Char) (h : isDigitChar c = true) :
    isUpperChar c = false := by
  simp only [isDigitChar, Bool.and_eq_true, decide_eq_true_eq] at h
  simp only [isUpperChar, Bool.and_eq_true, decide_eq_true_eq]
  simp only [Bool.and_eq_false_iff, decide_eq_false_iff_not]
  omega

theorem isDigitChar_of_upper (c : Char) (h : isUpperChar c = true) :
    isDigitChar c = false := by
  simp only [isUpperChar, Bool.and_eq_true, decide_eq_true_eq] at h
  simp only [isDigitChar, Bool.and_eq_false_iff, decide_eq_false_iff_not]
  omega

/-- Claim C9 (amended): the start-cell parsing of `extractSelectionData`
splits a well-formed reference `letters ++ digits` into its letter run
and the numeric value of its digit run; when either run is absent it
substitutes the defaults `'A'` and `1` instead of failing — the code has
no error path — and characters beyond the first runs are ignored rather
than rejected. -/
theorem parseStartCell_spec (letters digits : List Char)
    (hl : letters ≠ []) (hlu : letters.all isUpperChar = true)
    (hd : digits ≠ []) (hdd : digits.all isDigitChar = true) :
    parseStartCell (letters ++ digits) = (letters, parseIntDigits digits) ∧
    parseStartCell [] = (['A'], 1) ∧
    parseStartCell ("C10x!".toList) = (['C'], 10) := by
  refine ⟨?_, by decide, by decide⟩
  obtain ⟨c, cs, rfl⟩ : ∃ c cs, letters = c :: cs := by
    cases letters with
    | nil => exact absurd rfl hl
    | cons c cs => exact ⟨c, cs, rfl⟩
  obtain ⟨d, ds, rfl⟩ : ∃ d ds, digits = d :: ds := by
    cases digits with
    | nil => exact absurd rfl hd
    | cons d ds => exact ⟨d, ds, rfl⟩
  simp only [List.all_cons, Bool.and_eq_true] at hlu hdd
  have hcolrun : firstRun isUpperChar ((c :: cs) ++ d :: ds) = c :: cs := by
    rw [List.cons_append]
    rw [show firstRun isUpperChar (c :: (cs ++ d :: ds)) =
        if isUpperChar c = true then c :: (cs ++ d :: ds).takeWhile isUpperChar
        else firstRun isUpperChar (cs ++ d :: ds) from rfl]
    rw [if_pos hlu.1]
    rw [takeWhile_append_all cs (d :: ds) hlu.2]
    rw [List.takeWhile_cons, isUpperChar_of_digit d hdd.1]
    simp
  have hdigrun : firstRun isDigitChar ((c :: cs) ++ d :: ds) = d :: ds := by
    rw [firstRun_skip (c :: cs) (d :: ds) ?_]
    · simp only [firstRun, hdd.1, if_pos]
      congr 1
      have : (d :: ds).all isDigitChar = true := by simp [hdd.1, hdd.2]
      have h2 := takeWhile_append_all (p := isDigitChar) ds [] hdd.2
      simpa using h2
    · intro x hx
      exact isDigitChar_of_upper x (by
        cases hx with
        | head => exact hlu.1
        | tail _ hmm => exact List.all_eq_true.mp hlu.2 x hmm)
  unfold parseStartCell
  rw [hcolrun, hdigrun]
  simp

/-- Witness for claim C9 at the reference `"C10"`. -/
theorem parseStartCell_spec_witness :
    (['C'] : List Char) ≠ [] ∧ ['C'].all isUpperChar = true ∧
    (['1', '0'] : List Char) ≠ [] ∧ ['1', '0'].all isDigitChar = true ∧
    parseStartCell (['C'] ++ ['1', '0']) = (['C'], parseIntDigits ['1', '0']) :=
  ⟨by decide, by decide, by decide, by decide,
   (parseStartCell_spec ['C'] ['1', '0'] (by decide) (by decide) (by decide)
      (by decide)).1⟩

/-- Counterexample for claim C9 as stated: the code never raises a
ParseError — on the reference `"10"`, whose letter run is absent, it
returns the default column `'A'` with row 10, and on `"C10x"`, which has
characters beyond the two runs, it returns `('C', 10)` instead of
failing.  The parsing function of the source is total. -/
theorem parseStartCell_counterexample :
    parseStartCell "10".toList = (['A'], 10) ∧
    parseStartCell "".toList = (['A'], 1) ∧
    parseStartCell "C10x".toList = (['C'], 10) := by
  decide

/-! ### Composed automations -/

theorem jsOrList_none (b : List Char) : jsOrList none b = b := rfl

theorem mem_insertAt_self (l : List (List Char)) (p : Nat) (x : List Char) :
    x ∈ insertAt l p x := by
  simp [insertAt]

/-- Claim C3: a run of `copySelectionToNewSheet` with no `sheetName`
option and no name collision creates a sheet named exactly
`"Copy of {sourceSheet}"`, pastes the capture onto it at the very address
it was captured from (not re-anchored to A1), activates the new sheet
unless `activateNewSheet` is explicitly false, and returns success with
`{captured, newSheetName, pastedAddress}` where `pastedAddress` equals
the captured address. -/
theorem copySelectionToNewSheet_happy (st : HostState) (options : CopyToNewSheetOptions)
    (hname : options.sheetName = none)
    (hrow : st.selRowCount ≠ 0) (hcol : st.selColumnCount ≠ 0)
    (hfresh : sheetNameTaken st.sheets (copyOfName st) = false)
    (haddr : validAddress (addressOnly st.selAddress) = true) :
    (copySelectionToNewSheet st options).2 =
      { success := true
        data := some { captured := captureSelection st
                       newSheetName := copyOfName st
                       pastedAddress := (captureSelection st).address } } ∧
    copyOfName st ∈ (copySelectionToNewSheet st options).1.sheets ∧
    (copySelectionToNewSheet st options).1.writes = st.writes ++
      [{ sheet := copyOfName st
         address := (captureSelection st).address
         payload := if options.valuesOnly.getD false
                    then GridPayload.values st.selValues
                    else GridPayload.formulas st.selFormulas }] ∧
    (options.activateNewSheet ≠ some false →
      (copySelectionToNewSheet st options).1.active = copyOfName st) := by
  have hnot : ¬((captureSelection st).rowCount = 0 ∨ (captureSelection st).columnCount = 0) :=
    fun h => h.elim hrow hcol
  have hfresh' : sheetNameTaken st.sheets
      ("Copy of ".toList ++ (captureSelection st).sourceSheet) = false := hfresh
  have huniq : generateUniqueSheetName st.sheets
      ("Copy of ".toList ++ (captureSelection st).sourceSheet) =
      "Copy of ".toList ++ (captureSelection st).sourceSheet :=
    (generateUniqueSheetName_cases st.sheets (copyOfName st)).1 hfresh
  have hcreate : createSheet st
      { name := some ("Copy of ".toList ++ (captureSelection st).sourceSheet) } =
      .ok ({ st with sheets := (insertAt st.sheets (posOf st.active st.sheets + 1)
                ("Copy of ".toList ++ (captureSelection st).sourceSheet)) },
           "Copy of ".toList ++ (captureSelection st).sourceSheet) := by
    simp only [createSheet, Option.getD_some, hfresh']
    rfl
  have haddr' : validAddress ((captureSelection st).address) = true := haddr
  have hpaste : pasteRange
      { st with sheets := (insertAt st.sheets (posOf st.active st.sheets + 1)
          ("Copy of ".toList ++ (captureSelection st).sourceSheet)) }
      (captureSelection st)
      ("Copy of ".toList ++ (captureSelection st).sourceSheet)
      (some (captureSelection st).address) (options.valuesOnly.getD false) =
      .ok { st with
        sheets := (insertAt st.sheets (posOf st.active st.sheets + 1)
          ("Copy of ".toList ++ (captureSelection st).sourceSheet))
        writes := (st.writes ++
          [{ sheet := "Copy of ".toList ++ (captureSelection st).sourceSheet
             address := (captureSelection st).address
             payload := (if options.valuesOnly.getD false
                        then GridPayload.values st.selValues
                        else GridPayload.formulas st.selFormulas) }]) } := by
    simp only [pasteRange, jsOrList_some_self, haddr']
    rfl
  have hbody : copySelectionToNewSheetBody st options =
      .ok ((if options.activateNewSheet ≠ some false
            then activateSheet
              { st with
                sheets := (insertAt st.sheets (posOf st.active st.sheets + 1)
                  ("Copy of ".toList ++ (captureSelection st).sourceSheet))
                writes := (st.writes ++
                  [{ sheet := "Copy of ".toList ++ (captureSelection st).sourceSheet
                     address := (captureSelection st).address
                     payload := (if options.valuesOnly.getD false
                                then GridPayload.values st.selValues
                                else GridPayload.formulas st.selFormulas) }]) }
              ("Copy of ".toList ++ (captureSelection st).sourceSheet)
            else
              { st with
                sheets := (insertAt st.sheets (posOf st.active st.sheets + 1)
                  ("Copy of ".toList ++ (captureSelection st).sourceSheet))
                writes := (st.writes ++
                  [{ sheet := "Copy of ".toList ++ (captureSelection st).sourceSheet
                     address := (captureSelection st).address
                     payload := (if options.valuesOnly.getD false
                                then GridPayload.values st.selValues
                                else GridPayload.formulas st.selFormulas) }]) }),
           { success := true
             data := some { captured := captureSelection st
                            newSheetName :=
                              ("Copy of ".toList ++ (captureSelection st).sourceSheet)
                            pastedAddress := (captureSelection st).address } }) := by
    simp only [copySelectionToNewSheetBody, if_neg hnot, hname, jsOrList_none,
      huniq, hcreate, hpaste]
  simp only [copySelectionToNewSheet, hbody]
  refine ⟨rfl, ?_, ?_, ?_⟩
  · by_cases hact : options.activateNewSheet ≠ some false
    · rw [if_pos hact]
      exact mem_insertAt_self st.sheets _ _
    · rw [if_neg hact]
      exact mem_insertAt_self st.sheets _ _
  · by_cases hact : options.activateNewSheet ≠ some false
    · rw [if_pos hact]; rfl
    · rw [if_neg hact]; rfl
  · intro hact
    rw [if_pos hact]
    rfl

/-- Witness for claim C3 at the concrete workbook `exState` with the
default options. -/
theorem copySelectionToNewSheet_happy_witness :
    ({} : CopyToNewSheetOptions).sheetName = none ∧
    exState.selRowCount ≠ 0 ∧ exState.selColumnCount ≠ 0 ∧
    sheetNameTaken exState.sheets (copyOfName exState) = false ∧
    validAddress (addressOnly exState.selAddress) = true ∧
    (copySelectionToNewSheet exState {}).2 =
      { success := true
        data := some { captured := captureSelection exState
                       newSheetName := copyOfName exState
                       pastedAddress := (captureSelection exState).address } } :=
  ⟨rfl, by decide, by decide, by decide, by decide,
   (copySelectionToNewSheet_happy exState {} rfl (by decide) (by decide)
      (by decide) (by decide)).1⟩

/-- Claim C4 (amended): on a degenerate capture (zero rows or zero
columns), `copySelectionToNewSheet` returns a failure result with the
message `"No cells selected"` (capital N) and leaves the workbook
untouched — no sheet is created before the failure is returned; but
`duplicateSelection` performs no degeneracy check at all: it pastes the
degenerate grid and returns success whenever the host accepts the
write. -/
theorem degenerate_selection_behaviour (st : HostState) (options : CopyToNewSheetOptions)
    (tgt : List Char) (vo : Bool)
    (hdeg : st.selRowCount = 0 ∨ st.selColumnCount = 0)
    (htne : tgt ≠ []) (htgt : validAddress tgt = true) :
    copySelectionToNewSheet st options =
      (st, { success := false, error := some "No cells selected".toList }) ∧
    (duplicateSelection st tgt vo).2.success = true ∧
    (duplicateSelection st tgt vo).2.error = none ∧
    (duplicateSelection st tgt vo).1.writes = st.writes ++
      [{ sheet := st.active
         address := tgt
         payload := (if vo then GridPayload.values st.selValues
                    else GridPayload.formulas st.selFormulas) }] := by
  have hdeg' : (captureSelection st).rowCount = 0 ∨ (captureSelection st).columnCount = 0 :=
    hdeg
  have hjs : jsOrList (some tgt) (captureSelection st).address = tgt := by
    simp [jsOrList, htne]
  have hpaste : pasteRange st (captureSelection st) st.active (some tgt) vo =
      .ok { st with writes := (st.writes ++
        [{ sheet := st.active
           address := tgt
           payload := (if vo then GridPayload.values st.selValues
                      else GridPayload.formulas st.selFormulas) }]) } := by
    simp only [pasteRange, hjs, htgt]
    rfl
  refine ⟨?_, ?_, ?_, ?_⟩
  · simp only [copySelectionToNewSheet, copySelectionToNewSheetBody, if_pos hdeg']
  all_goals simp only [duplicateSelection, duplicateSelectionBody, hpaste]

/-- Counterexample for claim C4 as stated: on the concrete degenerate
workbook, `copySelectionToNewSheet` reports `"No cells selected"` — not
the claimed `"no cells selected"` — and `duplicateSelection`, which has
no degeneracy check in its source, returns success, not failure. -/
theorem degenerate_selection_counterexample :
    (copySelectionToNewSheet exDegenerate {}).2.error =
      some "No cells selected".toList ∧
    "No cells selected".toList ≠ "no cells selected".toList ∧
    (duplicateSelection exDegenerate "E5".toList false).2.success = true ∧
    (duplicateSelection exDegenerate "E5".toList false).2.error = none := by
  decide

/-- Witness for claim C4 (amended) at the concrete degenerate workbook. -/
theorem degenerate_selection_behaviour_witness :
    (exDegenerate.selRowCount = 0 ∨ exDegenerate.selColumnCount = 0) ∧
    ("E5".toList ≠ []) ∧ validAddress "E5".toList = true ∧
    copySelectionToNewSheet exDegenerate {} =
      (exDegenerate, { success := false, error := some "No cells selected".toList }) :=
  ⟨by decide, by decide, by decide,
   (degenerate_selection_behaviour exDegenerate {} "E5".toList false
      (by decide) (by decide) (by decide)).1⟩

theorem copyBody_ok_shape (st : HostState) (options : CopyToNewSheetOptions) :
    ∀ pr, copySelectionToNewSheetBody st options = .ok pr →
      (pr.2.success = true ∧ (∃ d, pr.2.data = some d) ∧ pr.2.error = none) ∨
      (pr.2.success = false ∧ (∃ m, pr.2.error = some m) ∧ pr.2.data = none) := by
  intro pr h
  simp only [copySelectionToNewSheetBody] at h
  split at h
  · injection h with h1
    subst h1
    right
    exact ⟨rfl, ⟨_, rfl⟩, rfl⟩
  · split at h
    · exact absurd h (by simp)
    · split at h
      · exact absurd h (by simp)
      · injection h with h1
        subst h1
        left
        exact ⟨rfl, ⟨_, rfl⟩, rfl⟩

theorem dupBody_ok_shape (st : HostState) (tgt : List Char) (vo : Bool) :
    ∀ pr, duplicateSelectionBody st tgt vo = .ok pr →
      (pr.2.success = true ∧ (∃ d, pr.2.data = some d) ∧ pr.2.error = none) ∨
      (pr.2.success = false ∧ (∃ m, pr.2.error = some m) ∧ pr.2.data = none) := by
  intro pr h
  simp only [duplicateSelectionBody] at h
  split at h
  · exact absurd h (by simp)
  · injection h with h1
    subst h1
    left
    exact ⟨rfl, ⟨_, rfl⟩, rfl⟩

/-- Claim C7: every invocation of a composed automation returns a uniform
`AutomationResult` — success carrying data with no error, or failure
carrying an error message with no data — and every error raised by the
body is caught at the boundary and converted into a failure result whose
message is taken from the error; no raw error escapes
`copySelectionToNewSheet` or `duplicateSelection`. -/
theorem automation_result_uniform (st : HostState) (options : CopyToNewSheetOptions)
    (tgt : List Char) (vo : Bool) :
    (((copySelectionToNewSheet st options).2.success = true ∧
       (∃ d, (copySelectionToNewSheet st options).2.data = some d) ∧
       (copySelectionToNewSheet st options).2.error = none) ∨
     ((copySelectionToNewSheet st options).2.success = false ∧
       (∃ m, (copySelectionToNewSheet st options).2.error = some m) ∧
       (copySelectionToNewSheet st options).2.data = none)) ∧
    (((duplicateSelection st tgt vo).2.success = true ∧
       (∃ d, (duplicateSelection st tgt vo).2.data = some d) ∧
       (duplicateSelection st tgt vo).2.error = none) ∨
     ((duplicateSelection st tgt vo).2.success = false ∧
       (∃ m, (duplicateSelection st tgt vo).2.error = some m) ∧
       (duplicateSelection st tgt vo).2.data = none)) ∧
    (∀ e st', copySelectionToNewSheetBody st options = .error (e, st') →
      copySelectionToNewSheet st options =
        (st', { success := false, error := some e.message })) ∧
    (∀ e st', duplicateSelectionBody st tgt vo = .error (e, st') →
      duplicateSelection st tgt vo =
        (st', { success := false, error := some e.message })) := by
  refine ⟨?_, ?_, ?_, ?_⟩
  · unfold copySelectionToNewSheet
    cases hb : copySelectionToNewSheetBody st options with
    | error p =>
      obtain ⟨e, st'⟩ := p
      right
      exact ⟨rfl, ⟨e.message, rfl⟩, rfl⟩
    | ok pr => exact copyBody_ok_shape st options pr hb
  · unfold duplicateSelection
    cases hb : duplicateSelectionBody st tgt vo with
    | error p =>
      obtain ⟨e, st'⟩ := p
      right
      exact ⟨rfl, ⟨e.message, rfl⟩, rfl⟩
    | ok pr => exact dupBody_ok_shape st tgt vo pr hb
  · intro e st' h
    unfold copySelectionToNewSheet
    rw [h]
  · intro e st' h
    unfold duplicateSelection
    rw [h]

/-- Witness for claim C7: the concrete malformed target address `"??"`
makes the body of `duplicateSelection` raise the host's invalid-address
error, and the automation converts it into a failure result carrying
that message. -/
theorem automation_result_uniform_witness :
    duplicateSelectionBody exState "??".toList false =
      .error ({ message := invalidAddressMessage }, exState) ∧
    duplicateSelection exState "??".toList false =
      (exState, { success := false, error := some invalidAddressMessage }) :=
  ⟨by decide,
   (automation_result_uniform exState {} "??".toList false).2.2.2
     { message := invalidAddressMessage } exState (by decide)⟩

end Draftworx
